import Mathlib

/-!
Shallow embedding of the cyclone pipeline-lifecycle coordinator
(pkg/server/manager/pipeline.go) and of the GitLab v3 provider's webhook
deletion, together with proofs about the webhook update protocol, the
statistics aggregator, and the error-handling policies of the lifecycle
operations.

External collaborators (the data store, the SCM provider, the quality-gate
integration, the environment, id generation) are modelled as oracles carried
in an Env record; every lifecycle operation additionally returns the ordered
list of externally visible actions it performed.  Go nil-pointer
dereferences (panics) are modelled by an operation returning none.
-/

namespace Cyclone

/-! ### String helpers modelling Go's strings package -/

/-- Models strings.HasPrefix s pre via the underlying character list. -/
def goStartsWith (s pre : String) : Bool :=
  List.isPrefixOf pre.toList s.toList

/-- Boolean infix test on character lists (helper for goContains). -/
def sublistCheck (sub : List Char) : List Char → Bool
  | [] => sub.isEmpty
  | c :: rest => List.isPrefixOf sub (c :: rest) || sublistCheck sub rest

/-- Models strings.Contains s sub via the underlying character list. -/
def goContains (s sub : String) : Bool :=
  sublistCheck sub.toList s.toList

/-- Models strings.TrimSuffix. -/
def goTrimSuffix (s suf : String) : String :=
  if List.isSuffixOf suf.toList s.toList then
    String.mk (s.toList.take (s.toList.length - suf.toList.length))
  else s

/-! ### Statistics aggregator

Shallow embedding of transRecordsToStats, initStatsDetails, statsStatus and
formatTimeToDay.  Go's time.Time is modelled by wall-clock seconds (int64,
modelled as unbounded Int since no claim exercises overflow) plus
nanoseconds; t.Unix() is the seconds field, t.Add(24*time.Hour) adds 86400
seconds, and t.After compares lexicographically.  Go's % on integers is the
truncated-division remainder, i.e. Int.tmod. -/

structure GoTime where
  sec : Int
  nsec : Nat
deriving DecidableEq, Repr

/-- Models t.Unix(). -/
def GoTime.unix (t : GoTime) : Int := t.sec

/-- Models t.After(u) on wall-clock times: t > u lexicographically. -/
def GoTime.after (t u : GoTime) : Bool :=
  u.sec < t.sec || (t.sec == u.sec && u.nsec < t.nsec)

/-- Models t.Add(24 * time.Hour). -/
def GoTime.add24h (t : GoTime) : GoTime := { t with sec := t.sec + 86400 }

/-- Execution-record statuses; pending and running stand for the statuses
that statsStatus's switch does not recognize. -/
inductive Status where
  | success | failed | aborted | pending | running
deriving DecidableEq, Repr

structure PipelineRecord where
  startTime : GoTime
  status : Status
deriving DecidableEq, Repr

structure StatsStatus where
  success : Nat := 0
  failed : Nat := 0
  aborted : Nat := 0
deriving DecidableEq, Repr

structure StatsDetail where
  timestamp : Int
  statsStatus : StatsStatus := {}
deriving DecidableEq, Repr

/-- Go api.StatsOverview; the Go field SuccessRatio is called
successRatioStr here. -/
structure StatsOverview where
  total : Nat
  successRatioStr : String
  statsStatus : StatsStatus := {}
deriving DecidableEq, Repr

structure PipelineStatusStats where
  overview : StatsOverview
  details : List StatsDetail
deriving DecidableEq, Repr

/-- Models formatTimeToDay: timestamp - (timestamp % 86400) with Go's
truncated remainder. -/
def formatTimeToDay (t : GoTime) : Int :=
  t.unix - Int.tmod t.unix 86400

/-- Models statsStatus: bump the counter matching the record status;
unrecognized statuses fall through the default branch unchanged. -/
def statsStatus (s : StatsStatus) (recordStatus : Status) : StatsStatus :=
  match recordStatus with
  | .success => { s with success := s.success + 1 }
  | .failed => { s with failed := s.failed + 1 }
  | .aborted => { s with aborted := s.aborted + 1 }
  | _ => s

/-- Fuel-indexed form of the for-loop in initStatsDetails.  The loop advances
start by 24h per iteration while !start.After(end), so
(stop.sec + 1 - start.sec).toNat is always enough fuel; the fuel only makes
the recursion structural. -/
def initStatsDetailsGo : Nat → GoTime → GoTime → List StatsDetail
  | 0, _, _ => []
  | fuel+1, start, stop =>
    if start.after stop then []
    else { timestamp := formatTimeToDay start } :: initStatsDetailsGo fuel start.add24h stop

/-- The loop of initStatsDetails. -/
def initStatsDetailsLoop (start stop : GoTime) : List StatsDetail :=
  initStatsDetailsGo (stop.sec + 1 - start.sec).toNat start stop

/-- Models initStatsDetails: one bucket per loop iteration, then the
inclusive-end fix-up appending stop's day when the list is nonempty and its
last bucket is not already that day. -/
def initStatsDetails (start stop : GoTime) : List StatsDetail :=
  let details := initStatsDetailsLoop start stop
  let endDay := formatTimeToDay stop
  match details.getLast? with
  | none => details
  | some last =>
    if last.timestamp ≠ endDay then details ++ [{ timestamp := endDay }] else details

/-- One record's pass over the detail buckets: the Go loop ranges over the
whole pointer slice and bumps every bucket whose timestamp equals the
record's day. -/
def applyRecordToDetails (record : PipelineRecord) (details : List StatsDetail) : List StatsDetail :=
  details.map fun detail =>
    if detail.timestamp = formatTimeToDay record.startTime then
      { detail with statsStatus := statsStatus detail.statsStatus record.status }
    else detail

/-- Two-digit zero-padded decimal rendering. -/
def twoDigits (n : Nat) : String :=
  if n < 10 then "0" ++ Nat.repr n else Nat.repr n

/-- Models fmt.Sprintf with verb %.2f%% applied to
float64(success)/float64(total)*100: the float64 arithmetic and decimal
conversion are modelled by exact rational rounding of success/total*100 to
hundredths, ties to even. -/
def fmtPercent (success total : Nat) : String :=
  let num := success * 10000
  let q := num / total
  let r := num % total
  let hundredths :=
    if total < 2 * r then q + 1
    else if 2 * r < total then q
    else if q % 2 = 0 then q else q + 1
  Nat.repr (hundredths / 100) ++ "." ++ twoDigits (hundredths % 100) ++ "%"

/-- One iteration of the record loop in transRecordsToStats: update the
matching detail buckets and the overview status. -/
def recordFold (st : PipelineStatusStats) (record : PipelineRecord) : PipelineStatusStats :=
  { details := applyRecordToDetails record st.details,
    overview := { st.overview with
      statsStatus := statsStatus st.overview.statsStatus record.status } }

/-- Models transRecordsToStats (its returned error is always nil and is
omitted). -/
def transRecordsToStats (records : List PipelineRecord) (start stop : GoTime) :
    PipelineStatusStats :=
  let init : PipelineStatusStats :=
    { overview := { total := records.length, successRatioStr := "0.00%" },
      details := initStatsDetails start stop }
  let folded := records.foldl recordFold init
  if folded.overview.total ≠ 0 then
    { folded with overview := { folded.overview with
        successRatioStr :=
          fmtPercent folded.overview.statsStatus.success folded.overview.total } }
  else folded

/-- Sum of the three per-status counters. -/
def StatsStatus.counterSum (s : StatsStatus) : Nat :=
  s.success + s.failed + s.aborted

/-- Sum over all detail buckets of Success + Failed + Aborted. -/
def detailsStatusSum (l : List StatsDetail) : Nat :=
  (l.map fun d => d.statsStatus.counterSum).sum

/-- How many detail buckets carry the day-stamp x (proof infrastructure). -/
def matchCount (x : Int) (details : List StatsDetail) : Nat :=
  (details.map (·.timestamp)).countP (fun t => t == x)

/-- The statuses counted by statsStatus's switch. -/
def recognizedStatus : Status → Bool
  | .success => true
  | .failed => true
  | .aborted => true
  | _ => false

/-- The last second value for which the initStatsDetails loop still runs an
iteration starting from start's nanosecond offset (proof infrastructure). -/
def eAdjOf (start stop : GoTime) : Int :=
  if start.nsec ≤ stop.nsec then stop.sec else stop.sec - 1

/-! ### Pipeline lifecycle manager: data model -/

inductive SCMType where
  | gitlab | github | svn
deriving DecidableEq, Repr

/-- Models strings.ToLower over the SCM type constants
("Gitlab", "Github", "SVN"). -/
def SCMType.lower : SCMType → String
  | .gitlab => "gitlab"
  | .github => "github"
  | .svn => "svn"

/-- Go error values, as far as the embedded code distinguishes them. -/
inductive GoError where
  | mgoNotFound
  | msg (s : String)
  | errorf (s : String)
  | validationFailed (what reason : String)
  | alreadyExist (name : String)
  | contentNotFound (what : String)
  | permissionDenied (name : String)
  | notImplemented (what : String)
deriving DecidableEq, Repr

/-- Models err.Error(): the code only string-matches on messages of generic
provider/integration errors, for which the message is carried verbatim. -/
def errMsg : GoError → String
  | .mgoNotFound => "not found"
  | .msg s => s
  | .errorf s => s
  | .validationFailed w r => w ++ " " ++ r
  | .alreadyExist n => n
  | .contentNotFound w => w
  | .permissionDenied n => n
  | .notImplemented w => w

structure MainRepo where
  url : String
  scmType : SCMType
deriving DecidableEq, Repr

structure SonarConfig where
  threshold : Int
deriving DecidableEq, Repr

structure SonarQubeStage where
  name : String
  config : Option SonarConfig
deriving DecidableEq, Repr

structure CodeScanStage where
  sonarQube : Option SonarQubeStage
deriving DecidableEq, Repr

structure CodeCheckoutStage where
  mainRepo : Option MainRepo
deriving DecidableEq, Repr

structure BuildStages where
  codeCheckout : Option CodeCheckoutStage
  codeScan : Option CodeScanStage
deriving DecidableEq, Repr

structure Build where
  stages : Option BuildStages
deriving DecidableEq, Repr

structure PostCommitTrigger where
  repoInfo : Option String := none
deriving DecidableEq, Repr

structure SCMTrigger where
  pullRequest : Option Unit := none
  pullRequestComment : Option Unit := none
  tagRelease : Option Unit := none
  push : Option Unit := none
  postCommit : Option PostCommitTrigger := none
  webhook : String := ""
deriving DecidableEq, Repr

structure AutoTrigger where
  scmTrigger : Option SCMTrigger := none
deriving DecidableEq, Repr

structure Pipeline where
  id : String := ""
  projectID : String := ""
  name : String := ""
  aliasName : String := ""
  description : String := ""
  owner : String := ""
  build : Option Build := none
  autoTrigger : Option AutoTrigger := none
  notification : Option String := none
  annotations : Option String := none
deriving DecidableEq, Repr

structure SCMConfig where
  scmType : SCMType
deriving DecidableEq, Repr

structure Project where
  id : String
  scm : Option SCMConfig
deriving DecidableEq, Repr

inductive EventType where
  | pullRequest | pullRequestComment | tagRelease | push
deriving DecidableEq, Repr

structure WebHook where
  url : String
  events : List EventType
deriving DecidableEq, Repr

/-- Externally visible side effects of the lifecycle operations, in program
order. -/
inductive Action where
  | createHook (repoURL : String) (hook : WebHook)
  | deleteHook (repoURL webhookURL : String)
  | retrieveRepo (repoURL : String)
  | storeCreatePipeline (p : Pipeline)
  | storeUpdatePipeline (p : Pipeline)
  | storeDeletePipeline (id : String)
  | clearRecords (pipelineID : String)
  | sonarCreateProject (pipelineID : String)
  | sonarSetGate (pipelineID : String) (gateID : Int)
  | sonarDeleteProject (pipelineID : String)
  | removeLogs (folder : String)
deriving DecidableEq, Repr

/-- The SCM provider as a deterministic oracle: each field gives the outcome
the remote call would have. -/
structure Provider where
  createWebHookRes : String → WebHook → Option GoError
  deleteWebHookRes : String → String → Option GoError
  retrieveRepoInfoRes : String → Except GoError String

structure SonarIntegration where
  address : String
  token : String
deriving DecidableEq, Repr

structure Integration where
  sonarQube : Option SonarIntegration
deriving DecidableEq, Repr

/-- The persistent store as a deterministic oracle. -/
structure DataStore where
  findProjectByName : String → Except GoError Project
  findPipelineByName : String → String → Except GoError Pipeline
  findPipelineByID : String → Except GoError Pipeline
  findPipelinesByProjectID : String → Except GoError (List Pipeline)
  createPipelineRes : Pipeline → Except GoError Pipeline
  updatePipelineRes : Pipeline → Option GoError
  deletePipelineByIDRes : String → Option GoError
  getIntegration : String → Except GoError Integration

/-- The ambient world of one lifecycle operation: collaborator oracles, the
callback environment variable, the id generator (freshId for the first
bson.NewObjectId().Hex() drawn in an operation, freshId2 for the second), and
slug.Slugify, which lives outside the excerpt and is kept abstract. -/
structure Env where
  ds : DataStore
  provider : Provider
  scmProviderRes : Option SCMConfig → Option GoError
  callbackEnv : Option String
  freshId : String
  freshId2 : String
  slugify : String → Bool → String
  integrateCreateProjectRes : String → String → String → String → Option GoError
  integrateSetGateRes : String → String → String → Int → Option GoError
  integrateDeleteProjectRes : String → String → String → Option GoError
  clearRecordsRes : String → Option GoError
  removeAllRes : String → Option GoError
  cycloneHome : String

/-! ### Pipeline lifecycle manager: operations -/

/-- Models osutil.GetStringEnv(options.CallbackURL, default): the variable's
value when set, otherwise the default (helper outside the excerpt, modelled
from its use in generateWebhookURL). -/
def getStringEnv (value : Option String) (defaultValue : String) : String :=
  match value with
  | some s => s
  | none => defaultValue

/-- Models generateWebhookURL. -/
def generateWebhookURL (env : Env) (scmType : SCMType) (pipelineID : String) : String :=
  let callbackURL := getStringEnv env.callbackEnv "http://127.0.0.1:7099/v1/pipelines"
  let callbackURL := goTrimSuffix callbackURL "/"
  callbackURL ++ "/" ++ pipelineID ++ "/" ++ scmType.lower ++ "webhook"

/-- Models collectSCMEvents; Go appends in the order pull-request,
pull-request-comment, tag-release, push. -/
def collectSCMEvents : Option SCMTrigger → List EventType
  | none => []
  | some trig =>
    (if trig.pullRequest.isSome then [EventType.pullRequest] else []) ++
    (if trig.pullRequestComment.isSome then [EventType.pullRequestComment] else []) ++
    (if trig.tagRelease.isSome then [EventType.tagRelease] else []) ++
    (if trig.push.isSome then [EventType.push] else [])

/-- The pipeline.Build.Stages.CodeCheckout.MainRepo pointer chain; none when
any link is nil (dereferencing it then panics in Go). -/
def mainRepoOf (p : Pipeline) : Option MainRepo :=
  ((p.build.bind (·.stages)).bind (·.codeCheckout)).bind (·.mainRepo)

structure GitSource where
  url : String
deriving DecidableEq, Repr

/-- Modelled from the spec: api.GetGitSource is outside the excerpt; the spec
describes it only as resolving the checked-out repository reference, with no
failure mode of its own, so it is modelled as total extraction of the
repository URL (the callers' error branches for it are then unreachable). -/
def apiGetGitSource (repo : MainRepo) : GitSource := { url := repo.url }

/-- Models createWebhook.  Returns none on a Go nil-pointer panic; otherwise
the (possibly mutated) pipeline, the provider calls performed, and the
returned error.  freshId models the bson.NewObjectId().Hex() draw. -/
def createWebhook (env : Env) (freshId : String) (p : Pipeline) (provider : Provider)
    (scmType : SCMType) (mainRepoUrl : String) (pipelineID : String) :
    Option (Pipeline × List Action × Option GoError) :=
  match p.autoTrigger with
  | none => some (p, [], none)
  | some auto =>
    match auto.scmTrigger with
    | none => some (p, [], none)
    | some trig =>
      if scmType = SCMType.svn ∧ trig.postCommit.isSome then
        match provider.retrieveRepoInfoRes mainRepoUrl with
        | .error e => some (p, [Action.retrieveRepo mainRepoUrl], some e)
        | .ok repoInfo =>
          let trig2 := { trig with
            postCommit := trig.postCommit.map fun pc => { pc with repoInfo := some repoInfo } }
          some ({ p with autoTrigger := some { auto with scmTrigger := some trig2 } },
                [Action.retrieveRepo mainRepoUrl], none)
      else
        let pid := if pipelineID = "" then freshId else pipelineID
        let p2 := { p with id := pid }
        let hook : WebHook :=
          { url := generateWebhookURL env scmType pid,
            events := collectSCMEvents (some trig) }
        match provider.createWebHookRes mainRepoUrl hook with
        | some e =>
          match mainRepoOf p2 with
          | none => none
          | some repo =>
            let translated :=
              if (repo.scmType = SCMType.gitlab ∧ goContains (errMsg e) "403") ∨
                 (repo.scmType = SCMType.github ∧ goContains (errMsg e) "404") then
                GoError.permissionDenied p2.name
              else e
            some (p2, [Action.createHook mainRepoUrl hook], some translated)
        | none =>
          some ({ p2 with
                   autoTrigger := some { auto with
                     scmTrigger := some { trig with webhook := hook.url } } },
                [Action.createHook mainRepoUrl hook], none)

/-- Models GetPipeline with all three recent-record counts zero (the only
form the embedded operations use); assignRecentRecord is then a no-op. -/
def getPipeline (env : Env) (projectName pipelineName : String) : Except GoError Pipeline :=
  match env.ds.findProjectByName projectName with
  | .error e =>
    .error (if e = GoError.mgoNotFound then GoError.contentNotFound projectName else e)
  | .ok project =>
    match env.ds.findPipelineByName project.id pipelineName with
    | .error e =>
      .error (if e = GoError.mgoNotFound then GoError.contentNotFound pipelineName else e)
    | .ok p => .ok p

/-- Models GetSCMConfigFromProject. -/
def getSCMConfigFromProject (env : Env) (projectName : String) :
    Except GoError (Option SCMConfig) :=
  match env.ds.findProjectByName projectName with
  | .error e =>
    .error (if e = GoError.mgoNotFound then GoError.contentNotFound projectName else e)
  | .ok project => .ok project.scm

/-- Models setSonarQualityGate; none models the Go panic when the code-scan
chain the callers guarantee is nil after all. -/
def setSonarQualityGate (env : Env) (p : Pipeline) : Option (List Action × Option GoError) :=
  match ((p.build.bind (·.stages)).bind (·.codeScan)).bind (·.sonarQube) with
  | none => none
  | some sq =>
    match sq.config with
    | none => none
    | some cfg =>
      match env.ds.getIntegration sq.name with
      | .error e => some ([], some e)
      | .ok integration =>
        match integration.sonarQube with
        | none => some ([], some (GoError.errorf "get sonar info failed"))
        | some sonar =>
          let createAct := [Action.sonarCreateProject p.id]
          let gateStep : List Action × Option GoError :=
            (createAct ++ [Action.sonarSetGate p.id cfg.threshold],
             env.integrateSetGateRes sonar.address sonar.token p.id cfg.threshold)
          match env.integrateCreateProjectRes sonar.address sonar.token p.id p.aliasName with
          | some e =>
            if goContains (errMsg e) "key already exists" then some gateStep
            else some (createAct, some e)
          | none => some gateStep

/-- The deferred cleanup in CreatePipeline: on an error after webhook
creation, the webhook recorded on the trigger is deleted (its own failure is
only logged). -/
def deferCleanup (gitSourceUrl : String) (p : Pipeline) : List Action :=
  match p.autoTrigger.bind (·.scmTrigger) with
  | some trig => [Action.deleteHook gitSourceUrl trig.webhook]
  | none => []

/-- The tail of CreatePipeline after name resolution: SCM config and provider
lookup, webhook creation, quality-gate provisioning and the store write, with
the deferred webhook cleanup on the error paths after webhook creation. -/
def createPipelineMain (env : Env) (projectName : String) (p : Pipeline) :
    Option (List Action × Except GoError Pipeline) :=
  match getSCMConfigFromProject env projectName with
  | .error e => some ([], .error e)
  | .ok scmConfig =>
  match env.scmProviderRes scmConfig with
  | some e => some ([], .error e)
  | none =>
  match mainRepoOf p with
  | none => none
  | some repo =>
  let gitSource := apiGetGitSource repo
  match scmConfig with
  | none => none
  | some cfg =>
  match createWebhook env env.freshId p env.provider cfg.scmType gitSource.url "" with
  | none => none
  | some (_, cwActs, some e) => some (cwActs, .error e)
  | some (p2, cwActs, none) =>
  let storeStep := fun (pfin : Pipeline) (acts : List Action) =>
    match env.ds.createPipelineRes pfin with
    | .error e =>
      some (acts ++ [Action.storeCreatePipeline pfin] ++ deferCleanup gitSource.url pfin,
            Except.error e)
    | .ok created => some (acts ++ [Action.storeCreatePipeline pfin], Except.ok created)
  match p2.build.bind (·.stages) with
  | none => none
  | some stages =>
  let needGate :=
    match stages.codeScan with
    | some cs =>
      match cs.sonarQube with
      | some sq =>
        match sq.config with
        | some c => decide (0 < c.threshold)
        | none => false
      | none => false
    | none => false
  if needGate then
    let p3 := if p2.id = "" then { p2 with id := env.freshId } else p2
    match setSonarQualityGate env p3 with
    | none => none
    | some (sActs, some e) =>
      some (cwActs ++ sActs ++ deferCleanup gitSource.url p3, .error e)
    | some (sActs, none) => storeStep p3 (cwActs ++ sActs)
  else storeStep p2 cwActs

/-- Models CreatePipeline: validation, name derivation from the alias,
collision handling, then createPipelineMain. -/
def createPipelineOp (env : Env) (projectName : String) (pipeline0 : Pipeline) :
    Option (List Action × Except GoError Pipeline) :=
  if pipeline0.name = "" ∧ pipeline0.aliasName = "" then
    some ([], .error (GoError.validationFailed "pipeline name and alias" "can not neither be empty"))
  else
    let nameEmpty := pipeline0.name = "" ∧ pipeline0.aliasName ≠ ""
    let p1 :=
      if pipeline0.name = "" ∧ pipeline0.aliasName ≠ "" then
        { pipeline0 with name := env.slugify pipeline0.aliasName false }
      else pipeline0
    match getPipeline env projectName p1.name with
    | .ok _ =>
      if nameEmpty then
        createPipelineMain env projectName { p1 with name := env.slugify p1.name true }
      else
        some ([], .error (GoError.alreadyExist p1.name))
    | .error _ => createPipelineMain env projectName p1

/-- The UpdatePipeline quality-gate condition over cs and newcs; none models
the Go panic when cs is non-nil but its SonarQube/Config chain is nil while
the new configuration passes the threshold tests. -/
def updateGateCond (cs newcs : Option CodeScanStage) : Option Bool :=
  match newcs with
  | none => some false
  | some n =>
    match n.sonarQube with
    | none => some false
    | some nsq =>
      match nsq.config with
      | none => some false
      | some ncfg =>
        if ncfg.threshold ≤ 0 then some false
        else
          match cs with
          | none => some true
          | some c =>
            match c.sonarQube with
            | none => none
            | some csq =>
              match csq.config with
              | none => none
              | some ccfg => some (decide (ccfg.threshold ≠ ncfg.threshold))

/-- Models UpdatePipeline; none models a Go nil-pointer panic. -/
def updatePipelineOp (env : Env) (projectName pipelineName : String) (newPipeline : Pipeline) :
    Option (List Action × Except GoError Pipeline) :=
  match getPipeline env projectName pipelineName with
  | .error e => some ([], .error e)
  | .ok pipeline =>
  match getSCMConfigFromProject env projectName with
  | .error e => some ([], .error e)
  | .ok scmConfig =>
  match env.scmProviderRes scmConfig with
  | some e => some ([], .error e)
  | none =>
  match mainRepoOf pipeline with
  | none => none
  | some oldRepo =>
  let oldGitSource := apiGetGitSource oldRepo
  let oldTrig := pipeline.autoTrigger.bind (·.scmTrigger)
  let delActs : List Action :=
    match oldTrig with
    | some trig =>
      if trig.webhook = "" then [] else [Action.deleteHook oldGitSource.url trig.webhook]
    | none => []
  let delErr : Option GoError :=
    match oldTrig with
    | some trig =>
      if trig.webhook = "" then none
      else env.provider.deleteWebHookRes oldGitSource.url trig.webhook
    | none => none
  match delErr with
  | some e => some (delActs, .error e)
  | none =>
  match mainRepoOf newPipeline with
  | none => none
  | some newRepo =>
  let newGitSource := apiGetGitSource newRepo
  match scmConfig with
  | none => none
  | some cfg =>
  match createWebhook env env.freshId newPipeline env.provider cfg.scmType newGitSource.url pipeline.id with
  | none => none
  | some (_, cwActs, some e) =>
    match createWebhook env env.freshId2 pipeline env.provider cfg.scmType oldGitSource.url pipeline.id with
    | none => none
    | some (_, rbActs, _) => some (delActs ++ cwActs ++ rbActs, .error e)
  | some (newP2, cwActs, none) =>
  let pipeline1 := { pipeline with autoTrigger := newP2.autoTrigger }
  let gateStep : Option (List Action × Option GoError) :=
    match pipeline1.build.bind (·.stages), newP2.build.bind (·.stages) with
    | some oldStages, some newStages =>
      match updateGateCond oldStages.codeScan newStages.codeScan with
      | none => none
      | some true => setSonarQualityGate env { newP2 with id := pipeline.id }
      | some false => some ([], none)
    | _, _ => some ([], none)
  match gateStep with
  | none => none
  | some (gActs, some e) => some (delActs ++ cwActs ++ gActs, .error e)
  | some (gActs, none) =>
  let merged := { pipeline1 with
    aliasName := newP2.aliasName,
    description := newP2.description,
    owner := if 0 < newP2.owner.length then newP2.owner else pipeline1.owner,
    build := match newP2.build with | some b => some b | none => pipeline1.build,
    notification := newP2.notification,
    annotations := newP2.annotations }
  match env.ds.updatePipelineRes merged with
  | some e =>
    some (delActs ++ cwActs ++ gActs ++ [Action.storeUpdatePipeline merged], .error e)
  | none =>
    some (delActs ++ cwActs ++ gActs ++ [Action.storeUpdatePipeline merged], .ok merged)

/-- The sonar-project cleanup tail of deletePipeline; every failure in it is
logged and the delete still returns nil. -/
def sonarCleanup (env : Env) (pipeline : Pipeline) (acc : List Action) :
    Option (List Action × Option GoError) :=
  match ((pipeline.build.bind (·.stages)).bind (·.codeScan)).bind (·.sonarQube) with
  | none => some (acc, none)
  | some sonar =>
    match env.ds.getIntegration sonar.name with
    | .error _ => some (acc, none)
    | .ok it =>
      match it.sonarQube with
      | none => some (acc, none)
      | some info =>
        match env.integrateDeleteProjectRes info.address info.token pipeline.id with
        | some _ => some (acc ++ [Action.sonarDeleteProject pipeline.id], none)
        | none => some (acc ++ [Action.sonarDeleteProject pipeline.id], none)

/-- Models deletePipeline (the unexported helper): clear the records, delete
the stored entity (both failures abort, wrapped), then best-effort webhook
and sonar cleanup. -/
def deletePipelineInner (env : Env) (scmConfig : Option SCMConfig) (pipeline : Pipeline) :
    Option (List Action × Option GoError) :=
  match env.clearRecordsRes pipeline.id with
  | some e =>
    some ([Action.clearRecords pipeline.id],
          some (GoError.errorf ("Fail to delete all pipeline records for pipeline " ++
                 pipeline.name ++ " as " ++ errMsg e)))
  | none =>
  match env.ds.deletePipelineByIDRes pipeline.id with
  | some e =>
    some ([Action.clearRecords pipeline.id, Action.storeDeletePipeline pipeline.id],
          some (GoError.errorf ("Fail to delete the pipeline " ++
                 pipeline.name ++ " as " ++ errMsg e)))
  | none =>
  let base := [Action.clearRecords pipeline.id, Action.storeDeletePipeline pipeline.id]
  match pipeline.autoTrigger.bind (·.scmTrigger) with
  | some trig =>
    match mainRepoOf pipeline with
    | none => none
    | some repo =>
      let gitSource := apiGetGitSource repo
      match env.scmProviderRes scmConfig with
      | some _ => some (base, none)
      | none =>
        match env.provider.deleteWebHookRes gitSource.url trig.webhook with
        | some _ => some (base ++ [Action.deleteHook gitSource.url trig.webhook], none)
        | none =>
          sonarCleanup env pipeline (base ++ [Action.deleteHook gitSource.url trig.webhook])
  | none => sonarCleanup env pipeline base

/-- Models DeletePipelineLogs; its result is ignored by DeletePipeline.  The
log folder is cycloneHome/projectID/pipelineID (os.PathSeparator on the
deployment platform is "/"). -/
def deletePipelineLogsOp (env : Env) (pipelineID : String) : List Action × Option GoError :=
  match env.ds.findPipelineByID pipelineID with
  | .error e =>
    ([], some (if e = GoError.mgoNotFound then
                 GoError.contentNotFound ("pipeline with id " ++ pipelineID) else e))
  | .ok p =>
    let folder := env.cycloneHome ++ "/" ++ p.projectID ++ "/" ++ p.id
    match env.removeAllRes folder with
    | some e => ([Action.removeLogs folder], some e)
    | none => ([Action.removeLogs folder], none)

/-- Models DeletePipeline. -/
def deletePipelineOp (env : Env) (projectName pipelineName : String) :
    Option (List Action × Option GoError) :=
  match getPipeline env projectName pipelineName with
  | .error e => some ([], some e)
  | .ok pipeline =>
  let logs := deletePipelineLogsOp env pipeline.id
  match getSCMConfigFromProject env projectName with
  | .error e => some (logs.1, some e)
  | .ok scmConfig =>
  match deletePipelineInner env scmConfig pipeline with
  | none => none
  | some (acts, res) => some (logs.1 ++ acts, res)

/-- Models ListPipelines with all recent counts zero (no concurrent fan-out);
query-parameter semantics are owned by the store oracle. -/
def listPipelines0 (env : Env) (projectName : String) : Except GoError (List Pipeline) :=
  match env.ds.findProjectByName projectName with
  | .error e =>
    .error (if e = GoError.mgoNotFound then GoError.contentNotFound projectName else e)
  | .ok project => env.ds.findPipelinesByProjectID project.id

/-- The deletion loop of ClearPipelinesOfProject. -/
def clearLoop (env : Env) (scmConfig : Option SCMConfig) :
    List Pipeline → List Action → Option (List Action × Option GoError)
  | [], acc => some (acc, none)
  | p :: rest, acc =>
    match deletePipelineInner env scmConfig p with
    | none => none
    | some (acts, some e) => some (acc ++ acts, some e)
    | some (acts, none) => clearLoop env scmConfig rest (acc ++ acts)

/-- Models ClearPipelinesOfProject: a listing failure is swallowed (the Go
code returns nil there), then each pipeline is deleted in turn, aborting on
the first failure. -/
def clearPipelinesOfProject (env : Env) (projectName : String) :
    Option (List Action × Option GoError) :=
  match listPipelines0 env projectName with
  | .error _ => some ([], none)
  | .ok pipelines =>
    match getSCMConfigFromProject env projectName with
    | .error e => some ([], some e)
    | .ok scmConfig => clearLoop env scmConfig pipelines []

/-! ### GitLab v3 provider: DeleteWebHook -/

structure ProjectHook where
  id : Int
  url : String
deriving DecidableEq, Repr

inductive GitlabAction where
  | listHooks (projectKey : String)
  | deleteProjectHook (projectKey : String) (hookID : Int)
deriving DecidableEq, Repr

/-- The go-gitlab client as a deterministic oracle, keyed by the
"owner/name" project key. -/
structure GitlabClient where
  listProjectHooksRes : String → Except GoError (List ProjectHook)
  deleteProjectHookRes : String → Int → Option GoError

/-- The GitLab v3 provider; provider.ParseRepoURL is outside the excerpt and
kept abstract. -/
structure GitlabV3 where
  client : GitlabClient
  parseRepoURL : String → String × String

/-- Models GitlabV3.DeleteWebHook: list the project hooks, delete the first
whose URL has webHookUrl as a prefix (returning nil even when that delete
call fails), and return nil when nothing matches. -/
def GitlabV3.deleteWebHookOp (g : GitlabV3) (repoURL webHookUrl : String) :
    List GitlabAction × Option GoError :=
  let ownerName := (g.parseRepoURL repoURL).1 ++ "/" ++ (g.parseRepoURL repoURL).2
  match g.client.listProjectHooksRes ownerName with
  | .error e => ([GitlabAction.listHooks ownerName], some e)
  | .ok hooks =>
    match hooks.find? (fun h => goStartsWith h.url webHookUrl) with
    | some h =>
      ([GitlabAction.listHooks ownerName, GitlabAction.deleteProjectHook ownerName h.id], none)
    | none => ([GitlabAction.listHooks ownerName], none)

/-! ### Concrete fixtures for closed instances -/

def baseProvider : Provider :=
  { createWebHookRes := fun _ _ => none,
    deleteWebHookRes := fun _ _ => none,
    retrieveRepoInfoRes := fun _ => .ok "repo-info" }

def wRepo : MainRepo :=
  { url := "https://gitlab.example.com/demo/app.git", scmType := SCMType.gitlab }

def wBuild : Build :=
  { stages := some { codeCheckout := some { mainRepo := some wRepo }, codeScan := none } }

def wTrig : SCMTrigger := { push := some () }

def wTrigHooked : SCMTrigger :=
  { push := some (), webhook := "http://cb/pid0/gitlabwebhook" }

def wOldPipeline : Pipeline :=
  { id := "pid0", name := "build", aliasName := "Build", build := some wBuild,
    autoTrigger := some { scmTrigger := some wTrigHooked } }

def wProject : Project := { id := "proj1", scm := some { scmType := SCMType.gitlab } }

def wStore : DataStore :=
  { findProjectByName := fun n => if n = "demo" then .ok wProject else .error .mgoNotFound,
    findPipelineByName := fun pid n =>
      if pid = "proj1" ∧ n = "build" then .ok wOldPipeline else .error .mgoNotFound,
    findPipelineByID := fun i => if i = "pid0" then .ok wOldPipeline else .error .mgoNotFound,
    findPipelinesByProjectID := fun _ => .ok [],
    createPipelineRes := fun p => .ok p,
    updatePipelineRes := fun _ => none,
    deletePipelineByIDRes := fun _ => none,
    getIntegration := fun _ => .error .mgoNotFound }

def wNewPipeline : Pipeline :=
  { name := "newpl", build := some wBuild, autoTrigger := some { scmTrigger := some wTrig } }

def baseEnv : Env :=
  { ds := wStore,
    provider := baseProvider,
    scmProviderRes := fun _ => none,
    callbackEnv := some "http://cyclone.example.com/v1/pipelines/",
    freshId := "fresh1",
    freshId2 := "fresh2",
    slugify := fun s b => if b then s ++ "-r4nd" else s,
    integrateCreateProjectRes := fun _ _ _ _ => none,
    integrateSetGateRes := fun _ _ _ _ => none,
    integrateDeleteProjectRes := fun _ _ _ => none,
    clearRecordsRes := fun _ => none,
    removeAllRes := fun _ => none,
    cycloneHome := "/var/lib/cyclone" }

/-! ### Lemmas: the day-bucket loop -/

theorem add24h_sec (t : GoTime) : t.add24h.sec = t.sec + 86400 := rfl

theorem add24h_nsec (t : GoTime) : t.add24h.nsec = t.nsec := rfl

theorem after_eq_true_iff (s e : GoTime) : s.after e = true ↔ eAdjOf s e < s.sec := by
  by_cases h : s.nsec ≤ e.nsec <;> simp [GoTime.after, eAdjOf, h] <;> omega

theorem after_eq_false_iff (s e : GoTime) : s.after e = false ↔ s.sec ≤ eAdjOf s e := by
  rw [← Bool.not_eq_true, after_eq_true_iff]
  omega

theorem eAdjOf_add24h (s e : GoTime) : eAdjOf s.add24h e = eAdjOf s e := by
  simp [eAdjOf, add24h_nsec]

theorem eAdjOf_le_sec (s e : GoTime) : eAdjOf s e ≤ e.sec := by
  by_cases h : s.nsec ≤ e.nsec <;> simp [eAdjOf, h]

theorem formatTimeToDay_emod (t : GoTime) (h : 0 ≤ t.sec) :
    formatTimeToDay t = t.sec - t.sec % 86400 := by
  unfold formatTimeToDay GoTime.unix
  rw [Int.tmod_eq_emod h (by norm_num)]

theorem formatTimeToDay_add24h (t : GoTime) (h : 0 ≤ t.sec) :
    formatTimeToDay t.add24h = formatTimeToDay t + 86400 := by
  rw [formatTimeToDay_emod t h, formatTimeToDay_emod t.add24h (by rw [add24h_sec]; omega),
    add24h_sec]
  omega

theorem initStatsDetailsGo_stamps (fuel : Nat) :
    ∀ start stop : GoTime, 0 ≤ start.sec → (stop.sec + 1 - start.sec).toNat ≤ fuel →
      (initStatsDetailsGo fuel start stop).map (·.timestamp) =
        if start.after stop then []
        else
          (List.range (((eAdjOf start stop - start.sec) / 86400).toNat + 1)).map
            (fun k : Nat => formatTimeToDay start + 86400 * (k : Int)) := by
  induction fuel with
  | zero =>
    intro s e h0 hf
    have hA : s.after e = true := by
      rw [after_eq_true_iff]
      have := eAdjOf_le_sec s e
      omega
    simp [initStatsDetailsGo, hA]
  | succ n ih =>
    intro s e h0 hf
    by_cases hA : s.after e = true
    · simp [initStatsDetailsGo, hA]
    · have hA' : s.after e = false := by simpa using hA
      have hle : s.sec ≤ eAdjOf s e := (after_eq_false_iff s e).mp hA'
      have hfs : (e.sec + 1 - s.add24h.sec).toNat ≤ n := by
        rw [add24h_sec]; omega
      have h0s : (0 : Int) ≤ s.add24h.sec := by rw [add24h_sec]; omega
      have ihs := ih s.add24h e h0s hfs
      rw [eAdjOf_add24h, add24h_sec] at ihs
      simp only [initStatsDetailsGo, hA', Bool.false_eq_true, if_false, List.map_cons, ihs]
      by_cases hA2 : s.add24h.after e = true
      · have h2 : eAdjOf s e < s.sec + 86400 := by
          have := (after_eq_true_iff s.add24h e).mp hA2
          rw [add24h_sec, eAdjOf_add24h] at this; exact this
        have hq : ((eAdjOf s e - s.sec) / 86400).toNat = 0 := by omega
        simp only [hA2, if_true, hq, List.range_succ, List.range_zero, List.nil_append,
          List.map_cons, List.map_nil]
        norm_num
      · have hA2' : s.add24h.after e = false := by simpa using hA2
        have hle2 : s.sec + 86400 ≤ eAdjOf s e := by
          have := (after_eq_false_iff s.add24h e).mp hA2'
          rw [add24h_sec, eAdjOf_add24h] at this; exact this
        have hn : ((eAdjOf s e - s.sec) / 86400).toNat =
            ((eAdjOf s e - (s.sec + 86400)) / 86400).toNat + 1 := by omega
        rw [hA2', if_neg (by simp), hn]
        conv_rhs => rw [List.range_succ_eq_map, List.map_cons, List.map_map]
        congr 1
        · norm_num
        · rw [formatTimeToDay_add24h s h0]
          apply List.map_congr_left
          intro k _
          simp only [Function.comp_apply]
          push_cast
          ring

theorem initStatsDetailsLoop_stamps (start stop : GoTime) (h0 : 0 ≤ start.sec) :
    (initStatsDetailsLoop start stop).map (·.timestamp) =
      if start.after stop then []
      else
        (List.range (((eAdjOf start stop - start.sec) / 86400).toNat + 1)).map
          (fun k : Nat => formatTimeToDay start + 86400 * (k : Int)) :=
  initStatsDetailsGo_stamps _ start stop h0 le_rfl

theorem map_range_getLast? (n : Nat) (f : Nat → Int) :
    ((List.range (n + 1)).map f).getLast? = some (f n) := by
  rw [List.range_succ, List.map_append]
  simp

theorem after_false_trans (a b c : GoTime) (h1 : a.after b = false) (h2 : b.after c = false) :
    a.after c = false := by
  simp only [GoTime.after, Bool.or_eq_false_iff, Bool.and_eq_false_iff,
    decide_eq_false_iff_not, beq_eq_false_iff_ne, ne_eq] at *
  omega

theorem sec_le_of_after_false (a b : GoTime) (h : a.after b = false) : a.sec ≤ b.sec := by
  simp only [GoTime.after, Bool.or_eq_false_iff, Bool.and_eq_false_iff,
    decide_eq_false_iff_not, beq_eq_false_iff_ne, ne_eq] at h
  omega

theorem bucket_arith_noappend (A B E : Int) (h0 : 0 ≤ A) (hE : A ≤ E) (hEB : E = B ∨ E = B - 1)
    (heq : (A - A % 86400) + 86400 * (((E - A) / 86400).toNat : Int) = B - B % 86400) :
    ((B - B % 86400 - (A - A % 86400)) / 86400).toNat = ((E - A) / 86400).toNat := by
  omega

theorem bucket_arith_append (A B E : Int) (h0 : 0 ≤ A) (hE : A ≤ E) (hEB : E = B ∨ E = B - 1)
    (hne : (A - A % 86400) + 86400 * (((E - A) / 86400).toNat : Int) ≠ B - B % 86400) :
    ((B - B % 86400 - (A - A % 86400)) / 86400).toNat = ((E - A) / 86400).toNat + 1 ∧
      (A - A % 86400) + 86400 * ((((E - A) / 86400).toNat : Int) + 1) = B - B % 86400 := by
  omega

theorem initStatsDetailsGo_of_after (fuel : Nat) (start stop : GoTime)
    (hA : start.after stop = true) : initStatsDetailsGo fuel start stop = [] := by
  cases fuel with
  | zero => rfl
  | succ n => simp [initStatsDetailsGo, hA]

theorem initStatsDetails_of_after (start stop : GoTime) (hA : start.after stop = true) :
    initStatsDetails start stop = [] := by
  have hloop : initStatsDetailsLoop start stop = [] :=
    initStatsDetailsGo_of_after _ start stop hA
  simp [initStatsDetails, hloop]

theorem initStatsDetails_stamps (start stop : GoTime) (h0 : 0 ≤ start.sec)
    (hA : start.after stop = false) :
    (initStatsDetails start stop).map (·.timestamp) =
      (List.range (((formatTimeToDay stop - formatTimeToDay start) / 86400).toNat + 1)).map
        (fun k : Nat => formatTimeToDay start + 86400 * (k : Int)) := by
  have hle : start.sec ≤ eAdjOf start stop := (after_eq_false_iff _ _).mp hA
  have hEB : eAdjOf start stop = stop.sec ∨ eAdjOf start stop = stop.sec - 1 := by
    unfold eAdjOf; split
    · exact Or.inl rfl
    · exact Or.inr rfl
  have hB : 0 ≤ stop.sec := by omega
  have hloop := initStatsDetailsLoop_stamps start stop h0
  rw [hA] at hloop
  simp only [Bool.false_eq_true, if_false] at hloop
  have hDne : initStatsDetailsLoop start stop ≠ [] := by
    intro hemp
    rw [hemp] at hloop
    have := congrArg List.length hloop
    simp at this
  rcases hL : (initStatsDetailsLoop start stop).getLast? with _ | ⟨last⟩
  · exact absurd (List.getLast?_eq_none_iff.mp hL) hDne
  · have hlastT : last.timestamp =
        formatTimeToDay start +
          86400 * ((((eAdjOf start stop - start.sec) / 86400).toNat : Int)) := by
      have h1 : ((initStatsDetailsLoop start stop).map (·.timestamp)).getLast? =
          some (formatTimeToDay start +
            86400 * ((((eAdjOf start stop - start.sec) / 86400).toNat : Int))) := by
        rw [hloop]
        exact map_range_getLast? _ _
      rw [List.getLast?_map, hL] at h1
      simpa using h1
    simp only [initStatsDetails, hL]
    by_cases hEq : last.timestamp = formatTimeToDay stop
    · rw [if_neg (by simp [hEq])]
      rw [hloop]
      have harith : ((formatTimeToDay stop - formatTimeToDay start) / 86400).toNat =
          ((eAdjOf start stop - start.sec) / 86400).toNat := by
        rw [formatTimeToDay_emod start h0, formatTimeToDay_emod stop hB]
        apply bucket_arith_noappend start.sec stop.sec (eAdjOf start stop) h0 hle hEB
        rw [← formatTimeToDay_emod start h0, ← formatTimeToDay_emod stop hB, ← hlastT, hEq]
      rw [harith]
    · rw [if_pos (by simpa using hEq)]
      have harith := bucket_arith_append start.sec stop.sec (eAdjOf start stop) h0 hle hEB
        (by
          rw [← formatTimeToDay_emod start h0, ← formatTimeToDay_emod stop hB, ← hlastT]
          exact hEq)
      rw [List.map_append, hloop]
      have hN : ((formatTimeToDay stop - formatTimeToDay start) / 86400).toNat =
          ((eAdjOf start stop - start.sec) / 86400).toNat + 1 := by
        rw [formatTimeToDay_emod start h0, formatTimeToDay_emod stop hB]
        exact harith.1
      rw [hN]
      conv_rhs => rw [List.range_succ, List.map_append]
      congr 1
      simp only [List.map_cons, List.map_nil]
      congr 1
      rw [formatTimeToDay_emod start h0, formatTimeToDay_emod stop hB]
      push_cast
      have := harith.2
      omega

theorem initStatsDetails_stamps_nodup (start stop : GoTime) (h0 : 0 ≤ start.sec) :
    ((initStatsDetails start stop).map (·.timestamp)).Nodup := by
  by_cases hA : start.after stop = true
  · simp [initStatsDetails_of_after start stop hA]
  · rw [initStatsDetails_stamps start stop h0 (by simpa using hA)]
    refine List.Nodup.map ?_ (List.nodup_range _)
    intro a b hab
    simp only at hab
    omega

theorem day_mem_stamps (start stop t : GoTime) (h0 : 0 ≤ start.sec)
    (h1 : start.after t = false) (h2 : t.after stop = false) :
    formatTimeToDay t ∈ (initStatsDetails start stop).map (·.timestamp) := by
  have hA : start.after stop = false := after_false_trans _ _ _ h1 h2
  have hst : start.sec ≤ t.sec := sec_le_of_after_false _ _ h1
  have hts : t.sec ≤ stop.sec := sec_le_of_after_false _ _ h2
  have h0t : (0 : Int) ≤ t.sec := by omega
  have h0B : (0 : Int) ≤ stop.sec := by omega
  rw [initStatsDetails_stamps start stop h0 hA]
  refine List.mem_map.mpr ⟨((formatTimeToDay t - formatTimeToDay start) / 86400).toNat,
    List.mem_range.mpr ?_, ?_⟩
  · rw [formatTimeToDay_emod start h0, formatTimeToDay_emod t h0t, formatTimeToDay_emod stop h0B]
    omega
  · rw [formatTimeToDay_emod start h0, formatTimeToDay_emod t h0t]
    push_cast
    omega

/-! ### Lemmas: the record fold of transRecordsToStats -/

theorem applyRecordToDetails_timestamps (r : PipelineRecord) (details : List StatsDetail) :
    (applyRecordToDetails r details).map (·.timestamp) = details.map (·.timestamp) := by
  unfold applyRecordToDetails
  rw [List.map_map]
  apply List.map_congr_left
  intro d _
  by_cases h : d.timestamp = formatTimeToDay r.startTime <;> simp [h]

theorem counterSum_statsStatus (s : StatsStatus) (st : Status) :
    (statsStatus s st).counterSum = s.counterSum + (if recognizedStatus st then 1 else 0) := by
  cases st <;> simp [statsStatus, StatsStatus.counterSum, recognizedStatus] <;> omega

theorem success_statsStatus (s : StatsStatus) (st : Status) :
    (statsStatus s st).success = s.success + (if st = Status.success then 1 else 0) := by
  cases st <;> simp [statsStatus]

theorem matchCount_applyRecord (x : Int) (r : PipelineRecord) (details : List StatsDetail) :
    matchCount x (applyRecordToDetails r details) = matchCount x details := by
  unfold matchCount
  rw [applyRecordToDetails_timestamps]

theorem detailsStatusSum_applyRecord (r : PipelineRecord) (details : List StatsDetail) :
    detailsStatusSum (applyRecordToDetails r details) =
      detailsStatusSum details +
        (if recognizedStatus r.status then
          matchCount (formatTimeToDay r.startTime) details else 0) := by
  induction details with
  | nil => simp [detailsStatusSum, applyRecordToDetails, matchCount]
  | cons d rest ih =>
    simp only [applyRecordToDetails, List.map_cons, detailsStatusSum, List.sum_cons,
      matchCount, List.countP_cons] at ih ⊢
    by_cases h : d.timestamp = formatTimeToDay r.startTime
    · rw [if_pos h, counterSum_statsStatus]
      have hbeq : (d.timestamp == formatTimeToDay r.startTime) = true := by
        simp [h]
      rw [hbeq, ih]
      by_cases hr : recognizedStatus r.status <;> simp [hr] <;> omega
    · rw [if_neg h]
      have hbeq : (d.timestamp == formatTimeToDay r.startTime) = false := by
        simp [h]
      rw [hbeq, ih]
      by_cases hr : recognizedStatus r.status <;> simp [hr] <;> omega

theorem matchCount_nodup (x : Int) (details : List StatsDetail)
    (h : (details.map (·.timestamp)).Nodup) :
    matchCount x details = if x ∈ details.map (·.timestamp) then 1 else 0 := by
  induction details with
  | nil => simp [matchCount]
  | cons d rest ih =>
    simp only [List.map_cons, List.nodup_cons] at h
    obtain ⟨hnotin, hnd⟩ := h
    simp only [matchCount, List.map_cons, List.countP_cons, List.mem_cons] at *
    rw [ih hnd]
    by_cases hdx : d.timestamp = x
    · rw [if_neg (by rw [← hdx]; exact hnotin)]
      simp [hdx]
    · have hxd : ¬x = d.timestamp := fun h => hdx h.symm
      by_cases hx : x ∈ rest.map (·.timestamp) <;> simp [hx, hdx, hxd]

theorem foldl_recordFold_total (records : List PipelineRecord) :
    ∀ st : PipelineStatusStats,
      (records.foldl recordFold st).overview.total = st.overview.total := by
  induction records with
  | nil => intro st; rfl
  | cons r rest ih => intro st; rw [List.foldl_cons, ih]; rfl

theorem foldl_recordFold_ratio (records : List PipelineRecord) :
    ∀ st : PipelineStatusStats,
      (records.foldl recordFold st).overview.successRatioStr = st.overview.successRatioStr := by
  induction records with
  | nil => intro st; rfl
  | cons r rest ih => intro st; rw [List.foldl_cons, ih]; rfl

theorem foldl_recordFold_stamps (records : List PipelineRecord) :
    ∀ st : PipelineStatusStats,
      (records.foldl recordFold st).details.map (·.timestamp) =
        st.details.map (·.timestamp) := by
  induction records with
  | nil => intro st; rfl
  | cons r rest ih =>
    intro st
    rw [List.foldl_cons, ih]
    exact applyRecordToDetails_timestamps r st.details

theorem foldl_recordFold_detailsSum (records : List PipelineRecord) :
    ∀ st : PipelineStatusStats,
      detailsStatusSum (records.foldl recordFold st).details =
        detailsStatusSum st.details +
          (records.map fun r =>
            if recognizedStatus r.status then
              matchCount (formatTimeToDay r.startTime) st.details else 0).sum := by
  induction records with
  | nil => intro st; simp
  | cons r rest ih =>
    intro st
    rw [List.foldl_cons, ih]
    simp only [List.map_cons, List.sum_cons]
    have hdet : (recordFold st r).details = applyRecordToDetails r st.details := rfl
    rw [hdet, detailsStatusSum_applyRecord]
    have hterms : (rest.map fun r' =>
        if recognizedStatus r'.status then
          matchCount (formatTimeToDay r'.startTime) (applyRecordToDetails r st.details)
        else 0) = (rest.map fun r' =>
        if recognizedStatus r'.status then
          matchCount (formatTimeToDay r'.startTime) st.details else 0) := by
      apply List.map_congr_left
      intro r' _
      rw [matchCount_applyRecord]
    rw [hterms]
    omega

theorem foldl_recordFold_overviewSum (records : List PipelineRecord) :
    ∀ st : PipelineStatusStats,
      (records.foldl recordFold st).overview.statsStatus.counterSum =
        st.overview.statsStatus.counterSum +
          (records.map fun r => if recognizedStatus r.status then 1 else 0).sum := by
  induction records with
  | nil => intro st; simp
  | cons r rest ih =>
    intro st
    rw [List.foldl_cons, ih]
    simp only [List.map_cons, List.sum_cons]
    have hov : (recordFold st r).overview.statsStatus =
        statsStatus st.overview.statsStatus r.status := rfl
    rw [hov, counterSum_statsStatus]
    omega

theorem detailsStatusSum_eq_zero_of (details : List StatsDetail)
    (h : ∀ d ∈ details, d.statsStatus = ({} : StatsStatus)) :
    detailsStatusSum details = 0 := by
  induction details with
  | nil => rfl
  | cons d rest ih =>
    simp only [detailsStatusSum, List.map_cons, List.sum_cons]
    rw [h d (by simp)]
    have : detailsStatusSum rest = 0 := ih (fun d' hd' => h d' (by simp [hd']))
    simp only [detailsStatusSum] at this
    rw [this]
    rfl

theorem initStatsDetailsGo_status (fuel : Nat) :
    ∀ start stop : GoTime, ∀ d ∈ initStatsDetailsGo fuel start stop,
      d.statsStatus = ({} : StatsStatus) := by
  induction fuel with
  | zero => intro s e d hd; simp [initStatsDetailsGo] at hd
  | succ n ih =>
    intro s e d hd
    by_cases hA : s.after e = true
    · simp [initStatsDetailsGo, hA] at hd
    · have hA' : s.after e = false := by simpa using hA
      simp only [initStatsDetailsGo, hA', Bool.false_eq_true, if_false, List.mem_cons] at hd
      rcases hd with hd | hd
      · rw [hd]
      · exact ih s.add24h e d hd

theorem initStatsDetailsLoop_status (start stop : GoTime) :
    ∀ d ∈ initStatsDetailsLoop start stop, d.statsStatus = ({} : StatsStatus) :=
  initStatsDetailsGo_status _ start stop

theorem detailsStatusSum_initStatsDetails (start stop : GoTime) :
    detailsStatusSum (initStatsDetails start stop) = 0 := by
  apply detailsStatusSum_eq_zero_of
  intro d hd
  rcases hL : (initStatsDetailsLoop start stop).getLast? with _ | ⟨last⟩
  · simp only [initStatsDetails, hL] at hd
    exact initStatsDetailsLoop_status start stop d hd
  · simp only [initStatsDetails, hL] at hd
    by_cases hne : last.timestamp ≠ formatTimeToDay stop
    · rw [if_pos hne] at hd
      rcases List.mem_append.mp hd with hd | hd
      · exact initStatsDetailsLoop_status start stop d hd
      · simp at hd
        rw [hd]
    · rw [if_neg hne] at hd
      exact initStatsDetailsLoop_status start stop d hd

theorem transRecordsToStats_details (records : List PipelineRecord) (start stop : GoTime) :
    (transRecordsToStats records start stop).details =
      (records.foldl recordFold
        { overview := { total := records.length, successRatioStr := "0.00%" },
          details := initStatsDetails start stop }).details := by
  simp only [transRecordsToStats]
  split <;> rfl

theorem transRecordsToStats_total (records : List PipelineRecord) (start stop : GoTime) :
    (transRecordsToStats records start stop).overview.total = records.length := by
  simp only [transRecordsToStats]
  split <;> rw [foldl_recordFold_total]

/-! ### Claims C2, C3, C4 -/

/-- Claim C2, counterexample: for start = -100s (before the Unix epoch) and
end = 86300s, Go's truncated % makes the normalization round toward zero, the
loop emits two buckets with the same stamp 0 (not one bucket per day
advancing 24 hours), no extra bucket is appended (the last stamp equals the
normalized end), and the bucket count 2 differs from the claimed
floor((normalizedEnd - normalizedStart)/86400) + 1 = 1. -/
theorem c2_bucket_generation_counterexample :
    (initStatsDetails ⟨-100, 0⟩ ⟨86300, 0⟩).map (·.timestamp) = [0, 0] ∧
    (initStatsDetails ⟨-100, 0⟩ ⟨86300, 0⟩).length = 2 ∧
    ((formatTimeToDay ⟨86300, 0⟩ - formatTimeToDay ⟨-100, 0⟩) / 86400).toNat + 1 = 1 := by
  decide

/-- Claim C2 (amended with: start lies on/after the Unix epoch, so that the
truncated % is a real floor): for every day-range with start ≤ end and
0 ≤ start, the generated bucket stamps are exactly one bucket per day from
the normalized start through the normalized end inclusive, advancing by
86400 per step (the inclusive-end fix-up bucket included), so the total
bucket count is floor((normalizedEnd - normalizedStart)/86400) + 1. -/
theorem c2_bucket_generation (start stop : GoTime) (h0 : 0 ≤ start.sec)
    (hA : start.after stop = false) :
    (initStatsDetails start stop).map (·.timestamp) =
      (List.range (((formatTimeToDay stop - formatTimeToDay start) / 86400).toNat + 1)).map
        (fun k : Nat => formatTimeToDay start + 86400 * (k : Int)) ∧
    (initStatsDetails start stop).length =
      ((formatTimeToDay stop - formatTimeToDay start) / 86400).toNat + 1 := by
  refine ⟨initStatsDetails_stamps start stop h0 hA, ?_⟩
  have h := congrArg List.length (initStatsDetails_stamps start stop h0 hA)
  simpa using h

/-- Witness for c2_bucket_generation at start = 0s, end = 90000s: buckets
for days 0 and 86400. -/
theorem c2_bucket_generation_witness :
    (initStatsDetails ⟨0, 0⟩ ⟨90000, 0⟩).map (·.timestamp) =
      (List.range (((formatTimeToDay ⟨90000, 0⟩ - formatTimeToDay ⟨0, 0⟩) / 86400).toNat + 1)).map
        (fun k : Nat => formatTimeToDay ⟨0, 0⟩ + 86400 * (k : Int)) ∧
    (initStatsDetails ⟨0, 0⟩ ⟨90000, 0⟩).length =
      ((formatTimeToDay ⟨90000, 0⟩ - formatTimeToDay ⟨0, 0⟩) / 86400).toNat + 1 :=
  c2_bucket_generation ⟨0, 0⟩ ⟨90000, 0⟩ (by decide) (by decide)

/-- Claim C3: the overview's success ratio is the literal "0.00%" whenever
the total is zero, and otherwise is success/total*100 formatted to two
decimals with a percent suffix (float64 formatting modelled by fmtPercent). -/
theorem c3_success_ratio (records : List PipelineRecord) (start stop : GoTime) :
    ((transRecordsToStats records start stop).overview.total = 0 →
      (transRecordsToStats records start stop).overview.successRatioStr = "0.00%") ∧
    ((transRecordsToStats records start stop).overview.total ≠ 0 →
      (transRecordsToStats records start stop).overview.successRatioStr =
        fmtPercent (transRecordsToStats records start stop).overview.statsStatus.success
          (transRecordsToStats records start stop).overview.total) := by
  have hrat := foldl_recordFold_ratio records
    { overview := { total := records.length, successRatioStr := "0.00%" },
      details := initStatsDetails start stop }
  simp only [transRecordsToStats]
  split
  next hcond => exact ⟨fun h => absurd h hcond, fun _ => rfl⟩
  next hcond =>
    push_neg at hcond
    exact ⟨fun _ => hrat, fun h => absurd hcond h⟩

/-- Witness for c3_success_ratio: an empty record set keeps the literal
"0.00%"; a 2-success/1-failed record set gets the formatted ratio. -/
theorem c3_success_ratio_witness :
    (transRecordsToStats [] ⟨0, 0⟩ ⟨0, 0⟩).overview.successRatioStr = "0.00%" ∧
    (transRecordsToStats
        [⟨⟨0, 0⟩, Status.success⟩, ⟨⟨0, 0⟩, Status.success⟩, ⟨⟨0, 0⟩, Status.failed⟩]
        ⟨0, 0⟩ ⟨0, 0⟩).overview.successRatioStr =
      fmtPercent
        (transRecordsToStats
          [⟨⟨0, 0⟩, Status.success⟩, ⟨⟨0, 0⟩, Status.success⟩, ⟨⟨0, 0⟩, Status.failed⟩]
          ⟨0, 0⟩ ⟨0, 0⟩).overview.statsStatus.success
        (transRecordsToStats
          [⟨⟨0, 0⟩, Status.success⟩, ⟨⟨0, 0⟩, Status.success⟩, ⟨⟨0, 0⟩, Status.failed⟩]
          ⟨0, 0⟩ ⟨0, 0⟩).overview.total :=
  ⟨(c3_success_ratio [] ⟨0, 0⟩ ⟨0, 0⟩).1 (by decide),
   (c3_success_ratio _ ⟨0, 0⟩ ⟨0, 0⟩).2 (by decide)⟩

/-- Claim C4, counterexample: with start = -100s the truncated-% rounding
yields two buckets with the same stamp, a single success record is counted
in both, and the per-status bucket sum 2 exceeds Overview.Total = 1; and a
recognized-status record lying outside [start, end] is counted in
Overview.Total but in no bucket, so the claimed equality also fails. -/
theorem c4_details_sum_counterexample :
    detailsStatusSum
        (transRecordsToStats [⟨⟨50, 0⟩, Status.success⟩] ⟨-100, 0⟩ ⟨86300, 0⟩).details = 2 ∧
    (transRecordsToStats [⟨⟨50, 0⟩, Status.success⟩] ⟨-100, 0⟩ ⟨86300, 0⟩).overview.total = 1 ∧
    detailsStatusSum
        (transRecordsToStats [⟨⟨432000, 0⟩, Status.success⟩] ⟨0, 0⟩ ⟨0, 0⟩).details = 0 ∧
    (transRecordsToStats [⟨⟨432000, 0⟩, Status.success⟩] ⟨0, 0⟩ ⟨0, 0⟩).overview.total = 1 := by
  decide

/-- Claim C4 (amended with: start lies on/after the Unix epoch, and for the
equality part every record's StartTime lies within [start, end]): the sum
over all buckets of Success + Failed + Aborted is at most Overview.Total;
it equals Overview.Total when every record has a recognized status and lies
in range; and Overview.Total is always the record count (so unrecognized
statuses count toward the total but toward no per-status counter). -/
theorem c4_details_sum (records : List PipelineRecord) (start stop : GoTime)
    (h0 : 0 ≤ start.sec) :
    detailsStatusSum (transRecordsToStats records start stop).details ≤
      (transRecordsToStats records start stop).overview.total ∧
    ((∀ r ∈ records, recognizedStatus r.status = true ∧
        start.after r.startTime = false ∧ r.startTime.after stop = false) →
      detailsStatusSum (transRecordsToStats records start stop).details =
        (transRecordsToStats records start stop).overview.total) ∧
    (transRecordsToStats records start stop).overview.total = records.length := by
  have htot := transRecordsToStats_total records start stop
  have hnodup := initStatsDetails_stamps_nodup start stop h0
  rw [transRecordsToStats_details records start stop] at *
  rw [htot] at *
  have hsum := foldl_recordFold_detailsSum records
    { overview := { total := records.length, successRatioStr := "0.00%" },
      details := initStatsDetails start stop }
  rw [detailsStatusSum_initStatsDetails, Nat.zero_add] at hsum
  refine ⟨?_, ?_, rfl⟩
  · rw [hsum]
    calc (records.map fun r =>
            if recognizedStatus r.status then
              matchCount (formatTimeToDay r.startTime) (initStatsDetails start stop)
            else 0).sum
        ≤ (records.map fun r =>
            if recognizedStatus r.status then
              matchCount (formatTimeToDay r.startTime) (initStatsDetails start stop)
            else 0).length * 1 := by
          apply List.sum_le_card_nsmul
          intro x hx
          rcases List.mem_map.mp hx with ⟨r, _, hr⟩
          rw [← hr]
          split
          · rw [matchCount_nodup _ _ hnodup]
            split <;> omega
          · omega
      _ = records.length := by simp
  · intro hall
    rw [hsum]
    have hmap : (records.map fun r =>
        if recognizedStatus r.status then
          matchCount (formatTimeToDay r.startTime) (initStatsDetails start stop)
        else 0) = records.map fun _ => 1 := by
      apply List.map_congr_left
      intro r hr
      obtain ⟨hrec, hin1, hin2⟩ := hall r hr
      rw [if_pos hrec, matchCount_nodup _ _ hnodup,
        if_pos (day_mem_stamps start stop r.startTime h0 hin1 hin2)]
    rw [hmap]
    simp

/-- Witness for c4_details_sum: a single in-range success record on the
single-day range [0, 0]. -/
theorem c4_details_sum_witness :
    detailsStatusSum
        (transRecordsToStats [⟨⟨0, 0⟩, Status.success⟩] ⟨0, 0⟩ ⟨0, 0⟩).details ≤
      (transRecordsToStats [⟨⟨0, 0⟩, Status.success⟩] ⟨0, 0⟩ ⟨0, 0⟩).overview.total ∧
    detailsStatusSum
        (transRecordsToStats [⟨⟨0, 0⟩, Status.success⟩] ⟨0, 0⟩ ⟨0, 0⟩).details =
      (transRecordsToStats [⟨⟨0, 0⟩, Status.success⟩] ⟨0, 0⟩ ⟨0, 0⟩).overview.total ∧
    (transRecordsToStats [⟨⟨0, 0⟩, Status.success⟩] ⟨0, 0⟩ ⟨0, 0⟩).overview.total = 1 :=
  ⟨(c4_details_sum _ _ _ (by decide)).1,
   (c4_details_sum _ _ _ (by decide)).2.1 (by decide),
   (c4_details_sum _ _ _ (by decide)).2.2⟩

/-! ### Claim C10 -/

/-- Claim C10: ClearPipelinesOfProject returns success (a nil error) whenever
the initial listing fails, performs no deletion action, and does not surface
the listing failure. -/
theorem c10_clear_swallows_listing_failure (env : Env) (projectName : String) (e : GoError)
    (h : listPipelines0 env projectName = .error e) :
    clearPipelinesOfProject env projectName = some ([], none) := by
  unfold clearPipelinesOfProject
  rw [h]

/-- Witness for c10_clear_swallows_listing_failure: the pipeline listing of
project demo fails with a store error and the clear still reports success. -/
theorem c10_clear_swallows_listing_failure_witness :
    clearPipelinesOfProject
      { baseEnv with ds :=
          { wStore with findPipelinesByProjectID := fun _ => .error (GoError.msg "db down") } }
      "demo" = some ([], none) :=
  c10_clear_swallows_listing_failure _ "demo" (GoError.msg "db down") rfl

/-! ### Claim C9 -/

theorem find_first_match {α : Type} (p : α → Bool) (pre : List α) (a : α) (post : List α)
    (hpre : ∀ x ∈ pre, p x = false) (ha : p a = true) :
    List.find? p (pre ++ a :: post) = some a := by
  induction pre with
  | nil => simp [List.find?, ha]
  | cons x xs ih =>
    simp only [List.cons_append, List.find?]
    rw [hpre x (by simp)]
    exact ih fun y hy => hpre y (by simp [hy])

/-- Claim C9: the GitLab provider's DeleteWebHook lists the repository's
hooks, deletes the first hook whose URL has the given webhook URL as a
prefix, and returns no error when no hook matches. -/
theorem c9_gitlab_delete_webhook (g : GitlabV3) (repoURL webHookUrl : String) :
    (∀ hooks, g.client.listProjectHooksRes
        ((g.parseRepoURL repoURL).1 ++ "/" ++ (g.parseRepoURL repoURL).2) = .ok hooks →
      (∀ h ∈ hooks, goStartsWith h.url webHookUrl = false) →
      g.deleteWebHookOp repoURL webHookUrl =
        ([GitlabAction.listHooks
            ((g.parseRepoURL repoURL).1 ++ "/" ++ (g.parseRepoURL repoURL).2)], none)) ∧
    (∀ pre hk post, g.client.listProjectHooksRes
        ((g.parseRepoURL repoURL).1 ++ "/" ++ (g.parseRepoURL repoURL).2) = .ok (pre ++ hk :: post) →
      (∀ h ∈ pre, goStartsWith h.url webHookUrl = false) →
      goStartsWith hk.url webHookUrl = true →
      g.deleteWebHookOp repoURL webHookUrl =
        ([GitlabAction.listHooks
            ((g.parseRepoURL repoURL).1 ++ "/" ++ (g.parseRepoURL repoURL).2),
          GitlabAction.deleteProjectHook
            ((g.parseRepoURL repoURL).1 ++ "/" ++ (g.parseRepoURL repoURL).2) hk.id], none)) := by
  constructor
  · intro hooks hlist hnone
    simp only [GitlabV3.deleteWebHookOp, hlist]
    rw [List.find?_eq_none.mpr fun x hx => by simp [hnone x hx]]
  · intro pre hk post hlist hpre hhk
    simp only [GitlabV3.deleteWebHookOp, hlist]
    rw [find_first_match _ pre hk post hpre hhk]

/-- Witness for c9_gitlab_delete_webhook: a hook list where no URL matches
the prefix, and one where the second of three hooks is the first match. -/
theorem c9_gitlab_delete_webhook_witness :
    GitlabV3.deleteWebHookOp
        { client := { listProjectHooksRes := fun _ => .ok [⟨7, "http://other/hook"⟩],
                      deleteProjectHookRes := fun _ _ => none },
          parseRepoURL := fun _ => ("demo", "app") }
        "https://gitlab.example.com/demo/app.git" "http://cb/pid0/gitlabwebhook" =
      ([GitlabAction.listHooks "demo/app"], none) ∧
    GitlabV3.deleteWebHookOp
        { client := { listProjectHooksRes := fun _ =>
                        .ok [⟨7, "http://other/hook"⟩,
                             ⟨8, "http://cb/pid0/gitlabwebhook?query=1"⟩,
                             ⟨9, "http://cb/pid0/gitlabwebhook"⟩],
                      deleteProjectHookRes := fun _ _ => none },
          parseRepoURL := fun _ => ("demo", "app") }
        "https://gitlab.example.com/demo/app.git" "http://cb/pid0/gitlabwebhook" =
      ([GitlabAction.listHooks "demo/app", GitlabAction.deleteProjectHook "demo/app" 8], none) :=
  ⟨(c9_gitlab_delete_webhook _ _ _).1 [⟨7, "http://other/hook"⟩] rfl (by decide),
   (c9_gitlab_delete_webhook _ _ _).2 [⟨7, "http://other/hook"⟩]
     ⟨8, "http://cb/pid0/gitlabwebhook?query=1"⟩ [⟨9, "http://cb/pid0/gitlabwebhook"⟩]
     rfl (by decide) (by decide)⟩

/-! ### Claim C6 -/

/-- Claim C6: when the provider's CreateWebHook call fails, the error is
translated into the CreateWebhookPermissionDenied kind exactly when the
failure message carries the provider family's permission signature (403 for
a GitLab repository, 404 for a GitHub repository); any other failure is
returned unchanged. -/
theorem c6_permission_translation (env : Env) (freshId : String) (p : Pipeline)
    (provider : Provider) (scmType : SCMType) (mainRepoUrl pipelineID : String)
    (auto : AutoTrigger) (trig : SCMTrigger) (repo : MainRepo) (e : GoError)
    (hat : p.autoTrigger = some auto) (htr : auto.scmTrigger = some trig)
    (hsvn : ¬(scmType = SCMType.svn ∧ trig.postCommit.isSome = true))
    (hrepo : mainRepoOf p = some repo)
    (hfail : provider.createWebHookRes mainRepoUrl
      { url := generateWebhookURL env scmType (if pipelineID = "" then freshId else pipelineID),
        events := collectSCMEvents (some trig) } = some e) :
    createWebhook env freshId p provider scmType mainRepoUrl pipelineID =
      some ({ p with id := if pipelineID = "" then freshId else pipelineID },
        [Action.createHook mainRepoUrl
          { url := generateWebhookURL env scmType (if pipelineID = "" then freshId else pipelineID),
            events := collectSCMEvents (some trig) }],
        some (if (repo.scmType = SCMType.gitlab ∧ goContains (errMsg e) "403" = true) ∨
                 (repo.scmType = SCMType.github ∧ goContains (errMsg e) "404" = true) then
                GoError.permissionDenied p.name
              else e)) := by
  simp only [mainRepoOf] at hrepo
  simp only [createWebhook, hat, htr, if_neg hsvn, hfail, mainRepoOf, hrepo]

/-- Witness for c6_permission_translation: a GitLab repository whose
provider rejects the webhook with an HTTP 403 message. -/
theorem c6_permission_translation_witness :
    createWebhook baseEnv "fresh1"
        { wOldPipeline with id := "" }
        { baseProvider with createWebHookRes := fun _ _ => some (GoError.msg "HTTP 403 Forbidden") }
        SCMType.gitlab wRepo.url "" =
      some ({ { wOldPipeline with id := "" } with id := "fresh1" },
        [Action.createHook wRepo.url
          { url := generateWebhookURL baseEnv SCMType.gitlab "fresh1",
            events := collectSCMEvents (some wTrigHooked) }],
        some (if (wRepo.scmType = SCMType.gitlab ∧
                    goContains (errMsg (GoError.msg "HTTP 403 Forbidden")) "403" = true) ∨
                 (wRepo.scmType = SCMType.github ∧
                    goContains (errMsg (GoError.msg "HTTP 403 Forbidden")) "404" = true) then
                GoError.permissionDenied { wOldPipeline with id := "" }.name
              else GoError.msg "HTTP 403 Forbidden")) :=
  c6_permission_translation baseEnv "fresh1" { wOldPipeline with id := "" }
    { baseProvider with createWebHookRes := fun _ _ => some (GoError.msg "HTTP 403 Forbidden") }
    SCMType.gitlab wRepo.url ""
    { scmTrigger := some wTrigHooked } wTrigHooked wRepo (GoError.msg "HTTP 403 Forbidden")
    rfl rfl (by decide) rfl rfl

/-! ### Claim C8 -/

/-- Claim C8: an explicit pipeline name that collides with an existing
pipeline fails creation with AlreadyExists and performs no action; a name
derived from the alias that collides is re-slugified with randomness and
creation proceeds, persisting the re-slugified name. -/
theorem c8_name_collision (env : Env) (projectName : String) (p : Pipeline)
    (repo : MainRepo) (created : Pipeline) :
    (∀ q, p.name ≠ "" → getPipeline env projectName p.name = .ok q →
      createPipelineOp env projectName p =
        some ([], .error (GoError.alreadyExist p.name))) ∧
    (∀ q cfg, p.name = "" → p.aliasName ≠ "" →
      getPipeline env projectName (env.slugify p.aliasName false) = .ok q →
      getSCMConfigFromProject env projectName = .ok (some cfg) →
      env.scmProviderRes (some cfg) = none →
      p.build = some { stages := some { codeCheckout := some { mainRepo := some repo },
                                        codeScan := none } } →
      p.autoTrigger = none →
      env.ds.createPipelineRes
        { p with name := env.slugify (env.slugify p.aliasName false) true } = .ok created →
      createPipelineOp env projectName p =
        some ([Action.storeCreatePipeline
                 { p with name := env.slugify (env.slugify p.aliasName false) true }],
              .ok created)) := by
  constructor
  · intro q hn hq
    have h1 : ¬(p.name = "" ∧ p.aliasName = "") := fun h => hn h.1
    have h2 : ¬(p.name = "" ∧ p.aliasName ≠ "") := fun h => hn h.1
    simp only [createPipelineOp, if_neg h1, if_neg h2, hq]
  · intro q cfg hname halias hq hcfg hprov hbuild hat hstore
    have h1 : ¬(p.name = "" ∧ p.aliasName = "") := fun h => halias h.2
    have h2 : p.name = "" ∧ p.aliasName ≠ "" := ⟨hname, halias⟩
    rw [hbuild, hat] at hstore
    simp only [createPipelineOp, if_neg h1, if_pos h2, hq]
    simp only [createPipelineMain, hcfg, hprov, mainRepoOf, hbuild, Option.bind,
      createWebhook, hat, apiGetGitSource]
    simp [hstore]

/-- Witness for c8_name_collision: in project demo, creating a pipeline
explicitly named build collides with the stored pipeline; creating one with
empty name and alias build gets the re-slugified name build-r4nd. -/
theorem c8_name_collision_witness :
    createPipelineOp baseEnv "demo" { name := "build", aliasName := "x" } =
      some ([], .error (GoError.alreadyExist "build")) ∧
    createPipelineOp baseEnv "demo"
        { name := "", aliasName := "build", build := some wBuild } =
      some ([Action.storeCreatePipeline
               { ({ name := "", aliasName := "build", build := some wBuild } : Pipeline) with
                 name := baseEnv.slugify (baseEnv.slugify "build" false) true }],
            .ok { ({ name := "", aliasName := "build", build := some wBuild } : Pipeline) with
                  name := baseEnv.slugify (baseEnv.slugify "build" false) true }) :=
  ⟨(c8_name_collision baseEnv "demo" { name := "build", aliasName := "x" } wRepo
      { name := "build" }).1 wOldPipeline (by decide) rfl,
   (c8_name_collision baseEnv "demo" { name := "", aliasName := "build", build := some wBuild }
      wRepo _).2 wOldPipeline { scmType := SCMType.gitlab }
      rfl (by decide) rfl rfl rfl rfl rfl rfl⟩

/-! ### Claim C5 -/

/-- Claim C5: on a pipeline with no identity and an SCM trigger whose Push
sub-trigger is set, in a gitlab-typed project, CreatePipeline assigns the
fresh identity, calls CreateWebHook with URL
callbackBase/pipelineID/gitlabwebhook and event set exactly the non-nil
sub-triggers (here push), stores the returned URL in the trigger's Webhook
field, and persists the pipeline in that state. -/
theorem c5_create_gitlab_webhook (env : Env) (projectName : String) (p : Pipeline)
    (repo : MainRepo) (trig : SCMTrigger) (e0 : GoError) (created : Pipeline)
    (hid : p.id = "")
    (hname : p.name ≠ "")
    (hnocol : getPipeline env projectName p.name = .error e0)
    (hcfg : getSCMConfigFromProject env projectName = .ok (some { scmType := SCMType.gitlab }))
    (hprov : env.scmProviderRes (some { scmType := SCMType.gitlab }) = none)
    (hbuild : p.build = some { stages := some { codeCheckout := some { mainRepo := some repo },
                                                codeScan := none } })
    (hat : p.autoTrigger = some { scmTrigger := some trig })
    (htrig : trig = { push := some () })
    (hhook : env.provider.createWebHookRes repo.url
      { url := generateWebhookURL env SCMType.gitlab env.freshId,
        events := [EventType.push] } = none)
    (hstore : env.ds.createPipelineRes
      { p with
        id := env.freshId,
        autoTrigger := some { scmTrigger := some { trig with webhook := generateWebhookURL env SCMType.gitlab env.freshId } } } =
        .ok created) :
    createPipelineOp env projectName p =
      some ([Action.createHook repo.url
               { url := generateWebhookURL env SCMType.gitlab env.freshId,
                 events := [EventType.push] },
             Action.storeCreatePipeline
               { p with
                 id := env.freshId,
                 autoTrigger := some { scmTrigger := some { trig with webhook := generateWebhookURL env SCMType.gitlab env.freshId } } }],
            .ok created) ∧
    collectSCMEvents (some trig) = [EventType.push] ∧
    generateWebhookURL env SCMType.gitlab env.freshId =
      goTrimSuffix (getStringEnv env.callbackEnv "http://127.0.0.1:7099/v1/pipelines") "/" ++
        "/" ++ env.freshId ++ "/gitlabwebhook" := by
  subst htrig
  have hev : collectSCMEvents (some ({ push := some () } : SCMTrigger)) = [EventType.push] := by
    decide
  refine ⟨?_, hev, ?_⟩
  · have h1 : ¬(p.name = "" ∧ p.aliasName = "") := fun h => hname h.1
    have h2 : ¬(p.name = "" ∧ p.aliasName ≠ "") := fun h => hname h.1
    rw [hbuild] at hstore
    simp only [createPipelineOp, if_neg h1, if_neg h2, hnocol]
    simp only [createPipelineMain, hcfg, hprov, mainRepoOf, hbuild, Option.bind,
      apiGetGitSource, createWebhook, hat, hev, if_neg (by decide :
        ¬(SCMType.gitlab = SCMType.svn ∧
          (({ push := some () } : SCMTrigger).postCommit.isSome = true))), hhook, hstore]
    simp [hhook, hstore, hev]
  · simp only [generateWebhookURL, SCMType.lower]
    rw [String.append_assoc
          (goTrimSuffix (getStringEnv env.callbackEnv "http://127.0.0.1:7099/v1/pipelines") "/" ++
            "/" ++ env.freshId) "/" "gitlab",
        String.append_assoc
          (goTrimSuffix (getStringEnv env.callbackEnv "http://127.0.0.1:7099/v1/pipelines") "/" ++
            "/" ++ env.freshId) ("/" ++ "gitlab") "webhook"]
    congr 1

/-- Witness for c5_create_gitlab_webhook: pipeline newpl with only the push
sub-trigger in project demo ends up persisted with the fresh identity and
the gitlab webhook URL. -/
theorem c5_create_gitlab_webhook_witness :
    (createPipelineOp baseEnv "demo" wNewPipeline =
      some ([Action.createHook wRepo.url
               { url := generateWebhookURL baseEnv SCMType.gitlab baseEnv.freshId,
                 events := [EventType.push] },
             Action.storeCreatePipeline
               { wNewPipeline with
                 id := baseEnv.freshId,
                 autoTrigger := some { scmTrigger := some { wTrig with webhook := generateWebhookURL baseEnv SCMType.gitlab baseEnv.freshId } } }],
            .ok { wNewPipeline with
                  id := baseEnv.freshId,
                  autoTrigger := some { scmTrigger := some { wTrig with webhook := generateWebhookURL baseEnv SCMType.gitlab baseEnv.freshId } } }) ∧
     collectSCMEvents (some wTrig) = [EventType.push] ∧
     generateWebhookURL baseEnv SCMType.gitlab baseEnv.freshId =
       goTrimSuffix (getStringEnv baseEnv.callbackEnv "http://127.0.0.1:7099/v1/pipelines") "/" ++
         "/" ++ baseEnv.freshId ++ "/gitlabwebhook") ∧
    generateWebhookURL baseEnv SCMType.gitlab "fresh1" =
      "http://cyclone.example.com/v1/pipelines/fresh1/gitlabwebhook" :=
  ⟨c5_create_gitlab_webhook baseEnv "demo" wNewPipeline wRepo wTrig
      (GoError.contentNotFound "newpl")
      { wNewPipeline with
        id := baseEnv.freshId,
        autoTrigger := some { scmTrigger := some { wTrig with webhook := generateWebhookURL baseEnv SCMType.gitlab baseEnv.freshId } } }
      rfl (by decide) rfl rfl rfl rfl rfl rfl rfl rfl,
   by decide⟩

/-! ### Claim C7 -/

theorem sonarCleanup_second (env : Env) (pipeline : Pipeline) (acc : List Action)
    (res : List Action × Option GoError) (h : sonarCleanup env pipeline acc = some res) :
    res.2 = none := by
  unfold sonarCleanup at h
  repeat' split at h
  all_goals injection h with h1
  all_goals rw [← h1]

theorem deletePipelineInner_oknone (env : Env) (scmConfig : Option SCMConfig)
    (pipeline : Pipeline) (res : List Action × Option GoError)
    (hclear : env.clearRecordsRes pipeline.id = none)
    (hdel : env.ds.deletePipelineByIDRes pipeline.id = none)
    (h : deletePipelineInner env scmConfig pipeline = some res) :
    res.2 = none := by
  unfold deletePipelineInner at h
  simp only [hclear, hdel] at h
  repeat' split at h
  all_goals first
    | exact Option.noConfusion h
    | exact sonarCleanup_second _ _ _ _ h
    | (injection h with h1; rw [← h1])

/-- Claim C7: for pipeline deletion, a record-deletion failure or a store
deletion failure aborts and is reported (wrapped) to the caller; when both
succeed, the secondary cleanups (webhook teardown, quality-gate project
deletion, log-folder removal) can fail in any way and the deletion still
returns success. -/
theorem c7_delete_error_policy (env : Env) (projectName pipelineName : String)
    (pipeline : Pipeline) (scmConfig : Option SCMConfig)
    (hget : getPipeline env projectName pipelineName = .ok pipeline)
    (hcfg : getSCMConfigFromProject env projectName = .ok scmConfig) :
    (∀ e, env.clearRecordsRes pipeline.id = some e →
      deletePipelineOp env projectName pipelineName =
        some ((deletePipelineLogsOp env pipeline.id).1 ++ [Action.clearRecords pipeline.id],
          some (GoError.errorf ("Fail to delete all pipeline records for pipeline " ++
            pipeline.name ++ " as " ++ errMsg e)))) ∧
    (∀ e, env.clearRecordsRes pipeline.id = none →
      env.ds.deletePipelineByIDRes pipeline.id = some e →
      deletePipelineOp env projectName pipelineName =
        some ((deletePipelineLogsOp env pipeline.id).1 ++
            [Action.clearRecords pipeline.id, Action.storeDeletePipeline pipeline.id],
          some (GoError.errorf ("Fail to delete the pipeline " ++
            pipeline.name ++ " as " ++ errMsg e)))) ∧
    (env.clearRecordsRes pipeline.id = none →
      env.ds.deletePipelineByIDRes pipeline.id = none →
      ∀ res, deletePipelineOp env projectName pipelineName = some res → res.2 = none) := by
  refine ⟨?_, ?_, ?_⟩
  · intro e hclear
    simp only [deletePipelineOp, hget, hcfg, deletePipelineInner, hclear]
  · intro e hclear hdel
    simp only [deletePipelineOp, hget, hcfg, deletePipelineInner, hclear, hdel]
  · intro hclear hdel res hres
    simp only [deletePipelineOp, hget, hcfg] at hres
    rcases hinner : deletePipelineInner env scmConfig pipeline with _ | ⟨acts, r2⟩
    · rw [hinner] at hres
      exact Option.noConfusion hres
    · rw [hinner] at hres
      injection hres with h1
      have h2 := deletePipelineInner_oknone env scmConfig pipeline (acts, r2) hclear hdel hinner
      rw [← h1]
      exact h2

/-- Witness for c7_delete_error_policy: deleting pipeline build of project
demo; record deletion fails, then store deletion fails, then with both
succeeding even a failing webhook teardown and failing log removal leave the
result nil. -/
theorem c7_delete_error_policy_witness :
    (deletePipelineOp
        { baseEnv with clearRecordsRes := fun _ => some (GoError.msg "records boom") }
        "demo" "build" =
      some ((deletePipelineLogsOp
              { baseEnv with clearRecordsRes := fun _ => some (GoError.msg "records boom") }
              "pid0").1 ++ [Action.clearRecords "pid0"],
        some (GoError.errorf ("Fail to delete all pipeline records for pipeline " ++
          "build" ++ " as " ++ errMsg (GoError.msg "records boom"))))) ∧
    (deletePipelineOp
        { baseEnv with ds := { wStore with deletePipelineByIDRes := fun _ => some (GoError.msg "store boom") } }
        "demo" "build" =
      some ((deletePipelineLogsOp
              { baseEnv with ds := { wStore with deletePipelineByIDRes := fun _ => some (GoError.msg "store boom") } }
              "pid0").1 ++ [Action.clearRecords "pid0", Action.storeDeletePipeline "pid0"],
        some (GoError.errorf ("Fail to delete the pipeline " ++
          "build" ++ " as " ++ errMsg (GoError.msg "store boom"))))) ∧
    (∀ res, deletePipelineOp
        { baseEnv with
          provider := { baseProvider with deleteWebHookRes := fun _ _ => some (GoError.msg "hook boom") },
          removeAllRes := fun _ => some (GoError.msg "rm boom") }
        "demo" "build" = some res → res.2 = none) :=
  ⟨((c7_delete_error_policy
      { baseEnv with clearRecordsRes := fun _ => some (GoError.msg "records boom") }
      "demo" "build" wOldPipeline (some { scmType := SCMType.gitlab })
      rfl rfl).1 (GoError.msg "records boom") rfl),
   ((c7_delete_error_policy
      { baseEnv with ds := { wStore with deletePipelineByIDRes := fun _ => some (GoError.msg "store boom") } }
      "demo" "build" wOldPipeline (some { scmType := SCMType.gitlab })
      rfl rfl).2.1 (GoError.msg "store boom") rfl rfl),
   (fun res hres =>
     (c7_delete_error_policy
      { baseEnv with
        provider := { baseProvider with deleteWebHookRes := fun _ _ => some (GoError.msg "hook boom") },
        removeAllRes := fun _ => some (GoError.msg "rm boom") }
      "demo" "build" wOldPipeline (some { scmType := SCMType.gitlab })
      rfl rfl).2.2 rfl rfl res hres)⟩

/-! ### Claim C1 -/

/-- Claim C1: in UpdatePipeline's webhook update protocol, the old webhook
is deleted before any new one is created; a deletion failure aborts with
that error and neither webhook creation nor a store write happens; a
creation failure triggers a compensating re-creation of the old webhook from
the old trigger configuration (whose own outcome is ignored), the original
creation error is returned, and no store write happens, leaving the stored
pipeline unchanged. -/
theorem c1_update_webhook_protocol (env : Env) (projectName pipelineName : String)
    (newPipeline pipeline : Pipeline) (cfg : SCMConfig) (oldRepo : MainRepo)
    (oldTrig : SCMTrigger)
    (hget : getPipeline env projectName pipelineName = .ok pipeline)
    (hcfg : getSCMConfigFromProject env projectName = .ok (some cfg))
    (hprov : env.scmProviderRes (some cfg) = none)
    (hrepo : mainRepoOf pipeline = some oldRepo)
    (htrig : pipeline.autoTrigger.bind (·.scmTrigger) = some oldTrig)
    (hwh : oldTrig.webhook ≠ "") :
    (∀ e, env.provider.deleteWebHookRes oldRepo.url oldTrig.webhook = some e →
      updatePipelineOp env projectName pipelineName newPipeline =
        some ([Action.deleteHook oldRepo.url oldTrig.webhook], .error e)) ∧
    (env.provider.deleteWebHookRes oldRepo.url oldTrig.webhook = none →
      ∀ newRepo np2 cwActs ce rb,
        mainRepoOf newPipeline = some newRepo →
        createWebhook env env.freshId newPipeline env.provider cfg.scmType newRepo.url
          pipeline.id = some (np2, cwActs, some ce) →
        createWebhook env env.freshId2 pipeline env.provider cfg.scmType oldRepo.url
          pipeline.id = some rb →
        updatePipelineOp env projectName pipelineName newPipeline =
          some ([Action.deleteHook oldRepo.url oldTrig.webhook] ++ cwActs ++ rb.2.1,
            .error ce)) := by
  constructor
  · intro e hdel
    simp only [updatePipelineOp, hget, hcfg, hprov, hrepo, apiGetGitSource, htrig,
      if_neg hwh, hdel]
  · intro hdel newRepo np2 cwActs ce rb hnew hcw hrb
    obtain ⟨rbP, rbActs, rbErr⟩ := rb
    simp only [updatePipelineOp, hget, hcfg, hprov, hrepo, apiGetGitSource, htrig,
      if_neg hwh, hdel, hnew, hcw, hrb]

/-- Witness for c1_update_webhook_protocol: updating pipeline build of
project demo; first with a provider whose webhook deletion fails, then with
one whose webhook creation fails (so the compensating re-creation is
attempted and also fails, while the update still reports the creation
error and writes nothing). -/
theorem c1_update_webhook_protocol_witness :
    updatePipelineOp
        { baseEnv with provider :=
            { baseProvider with deleteWebHookRes := fun _ _ => some (GoError.msg "delete boom") } }
        "demo" "build" wNewPipeline =
      some ([Action.deleteHook wRepo.url "http://cb/pid0/gitlabwebhook"],
        .error (GoError.msg "delete boom")) ∧
    updatePipelineOp
        { baseEnv with provider :=
            { baseProvider with createWebHookRes := fun _ _ => some (GoError.msg "create boom") } }
        "demo" "build" wNewPipeline =
      some ([Action.deleteHook wRepo.url "http://cb/pid0/gitlabwebhook"] ++
          [Action.createHook wRepo.url
            { url := "http://cyclone.example.com/v1/pipelines/pid0/gitlabwebhook",
              events := [EventType.push] }] ++
          [Action.createHook wRepo.url
            { url := "http://cyclone.example.com/v1/pipelines/pid0/gitlabwebhook",
              events := [EventType.push] }],
        .error (GoError.msg "create boom")) :=
  ⟨(c1_update_webhook_protocol
      { baseEnv with provider :=
          { baseProvider with deleteWebHookRes := fun _ _ => some (GoError.msg "delete boom") } }
      "demo" "build" wNewPipeline wOldPipeline { scmType := SCMType.gitlab } wRepo wTrigHooked
      rfl rfl rfl rfl rfl (by decide)).1 (GoError.msg "delete boom") rfl,
   (c1_update_webhook_protocol
      { baseEnv with provider :=
          { baseProvider with createWebHookRes := fun _ _ => some (GoError.msg "create boom") } }
      "demo" "build" wNewPipeline wOldPipeline { scmType := SCMType.gitlab } wRepo wTrigHooked
      rfl rfl rfl rfl rfl (by decide)).2 rfl wRepo
      { wNewPipeline with id := "pid0" }
      [Action.createHook wRepo.url
        { url := "http://cyclone.example.com/v1/pipelines/pid0/gitlabwebhook",
          events := [EventType.push] }]
      (GoError.msg "create boom")
      ({ wOldPipeline with id := "pid0" },
       [Action.createHook wRepo.url
         { url := "http://cyclone.example.com/v1/pipelines/pid0/gitlabwebhook",
           events := [EventType.push] }],
       some (GoError.msg "create boom"))
      rfl rfl rfl⟩

end Cyclone
